import Mathlib

/-!
Verification of the libucl emitter (src/external/libucl/src/ucl_emitter.c).

The C file is embedded shallowly: the growable `UT_string` output buffer
becomes a `List Char` result built by appending, the tagged `ucl_object_t`
tree becomes a mutual inductive family, and each static C function becomes
a Lean function of the same name.  External collaborators that are not part
of src/ are modelled from the spec where noted: the ordered hash iteration
(`HASH_ITER`) is insertion-order iteration over the member list, printf
`%ld`/`%lf`/`%.4lf` are fixed-notation decimal renderings, and doubles are
restricted to integral values (no claim depends on fractional formatting).
-/

set_option linter.unusedVariables false

namespace UclEmitter

/-- Decimal digit character for a value below ten. -/
def digitChar (n : Nat) : Char := Char.ofNat (48 + n)

/-- Modelled from the spec: printf %ld decimal rendering of a natural
number (the C standard library is not under src/); fuel-indexed so the
definition is structurally recursive, with fuel at least the digit count. -/
def natCharsGo : Nat → Nat → List Char → List Char
  | 0, _, acc => acc
  | fuel + 1, n, acc =>
      if n < 10 then digitChar n :: acc
      else natCharsGo fuel (n / 10) (digitChar (n % 10) :: acc)

/-- Decimal digits of a natural number. -/
def natChars (n : Nat) : List Char := natCharsGo (n + 1) n []

/-- Modelled from the spec: printf %ld rendering of a signed integer. -/
def intChars (i : Int) : List Char :=
  if i < 0 then '-' :: natChars i.natAbs else natChars i.natAbs

/-- Modelled from the spec: printf %lf fixed six-decimal rendering of a
double; the emitter's doubles are modelled as integral values, so the
fraction digits are all zero. -/
def lfChars (d : Int) : List Char := intChars d ++ ".000000".data

/-- Modelled from the spec: printf %.4lf fixed four-decimal rendering of an
integral double. -/
def lf4Chars (d : Int) : List Char := intChars d ++ ".0000".data

/-- One step of the switch inside ucl_elt_string_write_json: the characters
appended for one input character. -/
def ucl_escape_char (c : Char) : List Char :=
  if c = '\n' then ['\\', 'n']
  else if c = '\r' then ['\\', 'r']
  else if c = '\x08' then ['\\', 'b']
  else if c = '\t' then ['\\', 't']
  else if c = '\x0c' then ['\\', 'f']
  else if c = '\\' then ['\\', '\\']
  else if c = '"' then ['\\', '"']
  else [c]

/-- The while loop of ucl_elt_string_write_json over the characters of the
string (a C string: the characters before the terminating NUL). -/
def ucl_string_body : List Char → List Char
  | [] => []
  | c :: rest => ucl_escape_char c ++ ucl_string_body rest

/-- ucl_elt_string_write_json: wrap the escaped characters in double
quotes. -/
def ucl_elt_string_write_json (s : List Char) : List Char :=
  '"' :: ucl_string_body s ++ ['"']

/-- The seven characters the escaper replaces by two-character escapes. -/
def uclSpecialChars : List Char := ['\n', '\r', '\x08', '\t', '\x0c', '\\', '"']

/-- The tabs-decrementing loop of ucl_add_tabs: tabs copies of four
spaces. -/
def tabsChars : Nat → List Char
  | 0 => []
  | n + 1 => ' ' :: ' ' :: ' ' :: ' ' :: tabsChars n

/-- ucl_add_tabs: append 4*tabs spaces unless compact. -/
def ucl_add_tabs (tabs : Nat) (compact : Bool) : List Char :=
  if compact then [] else tabsChars tabs

mutual
/-- A ucl_object_t node (spec section 3): tagged kind with the
kind-appropriate payload.  A double payload is modelled as an integral
value.  An OBJECT carries its ordered member collection (value.ov); an
ARRAY carries its next-linked element chain (value.ov). -/
inductive UclObj : Type where
  | INT (i : Int)
  | FLOAT (d : Int)
  | TIME (d : Int)
  | BOOLEAN (b : Bool)
  | STRING (s : List Char)
  | OBJECT (ms : UclMembers)
  | ARRAY (es : UclList)
  | USERDATA

/-- A next-linked chain of nodes: the elements of an explicit array, or
the tail of an implicit same-key chain. -/
inductive UclList : Type where
  | nil
  | cons (hd : UclObj) (tl : UclList)

/-- Modelled from the spec: the ordered member collection of an object
(the uthash table of ucl_internal.h is not under src/; spec sections 3 and
6 give insertion-order iteration over (key, node) pairs).  Each member
carries its key, its first value node, and that node's implicit same-key
next-chain (duplicate insertion chains values under one key). -/
inductive UclMembers : Type where
  | nil
  | cons (key : List Char) (v : UclObj) (chain : UclList) (tl : UclMembers)
end

mutual
/-- ucl_elt_obj_write_json: braces around the member list, with tabs when
pretty. -/
def ucl_elt_obj_write_json (ms : UclMembers) (tabs : Nat) (start_tabs compact : Bool) :
    List Char :=
  (if start_tabs then ucl_add_tabs tabs compact else []) ++
  (if compact then "\x7b".data else "\x7b\n".data) ++
  ucl_json_members ms tabs compact ++
  ucl_add_tabs tabs compact ++ "\x7d".data
termination_by 3 * sizeOf ms + 2

/-- The HASH_ITER loop of ucl_elt_obj_write_json: one line per member, a
comma when another member follows (cur->hh.next non-null). -/
def ucl_json_members (ms : UclMembers) (tabs : Nat) (compact : Bool) : List Char :=
  match ms with
  | .nil => []
  | .cons k v chain tl =>
      ucl_add_tabs (tabs + 1) compact ++
      ucl_elt_string_write_json k ++
      (if compact then ":".data else ": ".data) ++
      ucl_obj_write_json v chain (tabs + 1) false compact ++
      (match tl with
       | .nil => if compact then [] else "\n".data
       | .cons _ _ _ _ => if compact then ",".data else ",\n".data) ++
      ucl_json_members tl tabs compact
termination_by 3 * sizeOf ms + 1

/-- ucl_elt_array_write_json: brackets around the element chain. -/
def ucl_elt_array_write_json (es : UclList) (tabs : Nat) (start_tabs compact : Bool) :
    List Char :=
  (if start_tabs then ucl_add_tabs tabs compact else []) ++
  (if compact then "[".data else "[\n".data) ++
  ucl_json_array_elts es tabs compact ++
  ucl_add_tabs tabs compact ++ "]".data
termination_by 3 * sizeOf es + 2

/-- The element loop of ucl_elt_array_write_json. -/
def ucl_json_array_elts (es : UclList) (tabs : Nat) (compact : Bool) : List Char :=
  match es with
  | .nil => []
  | .cons hd tl =>
      ucl_elt_write_json hd (tabs + 1) true compact ++
      (match tl with
       | .nil => if compact then [] else "\n".data
       | .cons _ _ => if compact then ",".data else ",\n".data) ++
      ucl_json_array_elts tl tabs compact
termination_by 3 * sizeOf es + 1

/-- ucl_elt_write_json: dispatch on the node kind; USERDATA emits
nothing. -/
def ucl_elt_write_json (o : UclObj) (tabs : Nat) (start_tabs compact : Bool) : List Char :=
  match o with
  | .INT i => (if start_tabs then ucl_add_tabs tabs compact else []) ++ intChars i
  | .FLOAT d => (if start_tabs then ucl_add_tabs tabs compact else []) ++ lfChars d
  | .TIME d => (if start_tabs then ucl_add_tabs tabs compact else []) ++ lfChars d
  | .BOOLEAN b =>
      (if start_tabs then ucl_add_tabs tabs compact else []) ++
      (if b then "true".data else "false".data)
  | .STRING s =>
      (if start_tabs then ucl_add_tabs tabs compact else []) ++
      ucl_elt_string_write_json s
  | .OBJECT ms => ucl_elt_obj_write_json ms tabs start_tabs compact
  | .ARRAY es => ucl_elt_array_write_json es tabs start_tabs compact
  | .USERDATA => []
termination_by 3 * sizeOf o

/-- ucl_obj_write_json: a value position; a non-null next chain is written
as an array (the implicit-array check is on the sibling link, not the kind
tag). -/
def ucl_obj_write_json (v : UclObj) (chain : UclList) (tabs : Nat) (start_tabs compact : Bool) :
    List Char :=
  match chain with
  | .cons c cs =>
      (if start_tabs then ucl_add_tabs tabs compact else []) ++
      (if compact then "[".data else "[\n".data) ++
      ucl_json_value_chain v (UclList.cons c cs) tabs compact ++
      ucl_add_tabs tabs compact ++ "]".data
  | .nil => ucl_elt_write_json v tabs start_tabs compact
termination_by 3 * sizeOf v + 3 * sizeOf chain + 2

/-- The while loop inside the implicit-array branch of ucl_obj_write_json:
a comma after every element that has a successor, a newline after every
element when pretty. -/
def ucl_json_value_chain (cur : UclObj) (rest : UclList) (tabs : Nat) (compact : Bool) :
    List Char :=
  ucl_elt_write_json cur (tabs + 1) true compact ++
  (match rest with
   | .nil => []
   | .cons _ _ => ",".data) ++
  (if compact then [] else "\n".data) ++
  (match rest with
   | .nil => []
   | .cons c cs => ucl_json_value_chain c cs tabs compact)
termination_by 3 * sizeOf cur + 3 * sizeOf rest + 1
end

/-- ucl_object_emit_json: the root node is written as a value position with
a null sibling link, depth 0, no starting tabs. -/
def ucl_object_emit_json (o : UclObj) (compact : Bool) : List Char :=
  ucl_obj_write_json o UclList.nil 0 false compact

/-- The container test of the RCL and YAML object writers:
cur->type == UCL_OBJECT || cur->type == UCL_ARRAY. -/
def ucl_is_container : UclObj → Bool
  | .OBJECT _ => true
  | .ARRAY _ => true
  | _ => false

mutual
/-- ucl_elt_obj_write_rcl: key = value lines; at top level the braces and
the member indentation are suppressed (ucl_add_tabs receives is_top as its
compact flag).  The outer while (obj) loop walks the sibling link of the
member-collection head: after the HASH_ITER pass over the members it
continues over the head member's implicit same-key chain, each chain node
iterated as a single-member table carrying the same key (spec section 4.4:
the loop merges sibling objects at one nesting level into one flattened
member list; the uthash layout itself is not under src/). -/
def ucl_elt_obj_write_rcl (ms : UclMembers) (tabs : Nat) (start_tabs is_top : Bool) :
    List Char :=
  (if start_tabs then ucl_add_tabs tabs is_top else []) ++
  (if is_top then [] else "\x7b\n".data) ++
  (match ms with
   | .nil => []
   | .cons k v chain tl =>
       ucl_rcl_members (UclMembers.cons k v chain tl) tabs is_top ++
       ucl_rcl_chain k chain tabs is_top) ++
  ucl_add_tabs tabs is_top ++
  (if is_top then [] else "\x7d".data)
termination_by 3 * sizeOf ms + 2

/-- The HASH_ITER pass of ucl_elt_obj_write_rcl: one line per member, the
key verbatim, " = value;" for scalars and " value" for containers. -/
def ucl_rcl_members (ms : UclMembers) (tabs : Nat) (is_top : Bool) : List Char :=
  match ms with
  | .nil => []
  | .cons k v _ tl =>
      ucl_add_tabs (tabs + 1) is_top ++
      k ++
      (if ucl_is_container v then " ".data else " = ".data) ++
      ucl_elt_write_rcl v (if is_top then tabs else tabs + 1) false false ++
      (if ucl_is_container v then "\n".data else ";\n".data) ++
      ucl_rcl_members tl tabs is_top
termination_by 3 * sizeOf ms + 1

/-- The continuation of the while (obj) loop of ucl_elt_obj_write_rcl over
the head member's chain: each chain node emitted as one member line under
the shared key. -/
def ucl_rcl_chain (k : List Char) (chain : UclList) (tabs : Nat) (is_top : Bool) :
    List Char :=
  match chain with
  | .nil => []
  | .cons e es =>
      ucl_add_tabs (tabs + 1) is_top ++
      k ++
      (if ucl_is_container e then " ".data else " = ".data) ++
      ucl_elt_write_rcl e (if is_top then tabs else tabs + 1) false false ++
      (if ucl_is_container e then "\n".data else ";\n".data) ++
      ucl_rcl_chain k es tabs is_top
termination_by 3 * sizeOf chain + 2

/-- ucl_elt_array_write_rcl: one element per line, a trailing comma after
every element including the last; the is_top argument is accepted but
unused, as in the source. -/
def ucl_elt_array_write_rcl (es : UclList) (tabs : Nat) (start_tabs is_top : Bool) :
    List Char :=
  (if start_tabs then ucl_add_tabs tabs false else []) ++
  "[\n".data ++
  ucl_rcl_array_elts es tabs ++
  ucl_add_tabs tabs false ++ "]".data
termination_by 3 * sizeOf es + 2

/-- The element loop of ucl_elt_array_write_rcl. -/
def ucl_rcl_array_elts (es : UclList) (tabs : Nat) : List Char :=
  match es with
  | .nil => []
  | .cons hd tl =>
      ucl_elt_write_rcl hd (tabs + 1) true false ++
      ",\n".data ++
      ucl_rcl_array_elts tl tabs
termination_by 3 * sizeOf es + 1

/-- ucl_elt_write_rcl: dispatch on the node kind; floats use four-decimal
precision; USERDATA emits nothing. -/
def ucl_elt_write_rcl (o : UclObj) (tabs : Nat) (start_tabs is_top : Bool) : List Char :=
  match o with
  | .INT i => (if start_tabs then ucl_add_tabs tabs false else []) ++ intChars i
  | .FLOAT d => (if start_tabs then ucl_add_tabs tabs false else []) ++ lf4Chars d
  | .TIME d => (if start_tabs then ucl_add_tabs tabs false else []) ++ lf4Chars d
  | .BOOLEAN b =>
      (if start_tabs then ucl_add_tabs tabs false else []) ++
      (if b then "true".data else "false".data)
  | .STRING s =>
      (if start_tabs then ucl_add_tabs tabs false else []) ++
      ucl_elt_string_write_json s
  | .OBJECT ms => ucl_elt_obj_write_rcl ms tabs start_tabs is_top
  | .ARRAY es => ucl_elt_array_write_rcl es tabs start_tabs is_top
  | .USERDATA => []
termination_by 3 * sizeOf o
end

/-- ucl_object_emit_rcl: the root is written with is_top = true. -/
def ucl_object_emit_rcl (o : UclObj) : List Char :=
  ucl_elt_write_rcl o 0 false true

mutual
/-- ucl_elt_obj_write_yaml: mirrors the RCL object writer with YAML flow
tokens (": {" opener, " : " scalar separator, "," scalar terminator). -/
def ucl_elt_obj_write_yaml (ms : UclMembers) (tabs : Nat) (start_tabs is_top : Bool) :
    List Char :=
  (if start_tabs then ucl_add_tabs tabs is_top else []) ++
  (if is_top then [] else ": \x7b\n".data) ++
  (match ms with
   | .nil => []
   | .cons k v chain tl =>
       ucl_yaml_members (UclMembers.cons k v chain tl) tabs is_top ++
       ucl_yaml_chain k chain tabs is_top) ++
  ucl_add_tabs tabs is_top ++
  (if is_top then [] else "\x7d".data)
termination_by 3 * sizeOf ms + 2

/-- The HASH_ITER pass of ucl_elt_obj_write_yaml. -/
def ucl_yaml_members (ms : UclMembers) (tabs : Nat) (is_top : Bool) : List Char :=
  match ms with
  | .nil => []
  | .cons k v _ tl =>
      ucl_add_tabs (tabs + 1) is_top ++
      k ++
      (if ucl_is_container v then " ".data else " : ".data) ++
      ucl_elt_write_yaml v (if is_top then tabs else tabs + 1) false false ++
      (if ucl_is_container v then "\n".data else ",\n".data) ++
      ucl_yaml_members tl tabs is_top
termination_by 3 * sizeOf ms + 1

/-- The while (obj) continuation of ucl_elt_obj_write_yaml over the head
member's chain. -/
def ucl_yaml_chain (k : List Char) (chain : UclList) (tabs : Nat) (is_top : Bool) :
    List Char :=
  match chain with
  | .nil => []
  | .cons e es =>
      ucl_add_tabs (tabs + 1) is_top ++
      k ++
      (if ucl_is_container e then " ".data else " : ".data) ++
      ucl_elt_write_yaml e (if is_top then tabs else tabs + 1) false false ++
      (if ucl_is_container e then "\n".data else ",\n".data) ++
      ucl_yaml_chain k es tabs is_top
termination_by 3 * sizeOf chain + 2

/-- ucl_elt_array_write_yaml: ": [" opener, a trailing ",\n" after every
element; the is_top argument is accepted but unused, as in the source. -/
def ucl_elt_array_write_yaml (es : UclList) (tabs : Nat) (start_tabs is_top : Bool) :
    List Char :=
  (if start_tabs then ucl_add_tabs tabs false else []) ++
  ": [\n".data ++
  ucl_yaml_array_elts es tabs ++
  ucl_add_tabs tabs false ++ "]".data
termination_by 3 * sizeOf es + 2

/-- The element loop of ucl_elt_array_write_yaml. -/
def ucl_yaml_array_elts (es : UclList) (tabs : Nat) : List Char :=
  match es with
  | .nil => []
  | .cons hd tl =>
      ucl_elt_write_yaml hd (tabs + 1) true false ++
      ",\n".data ++
      ucl_yaml_array_elts tl tabs
termination_by 3 * sizeOf es + 1

/-- ucl_elt_write_yaml: dispatch on the node kind; floats use four-decimal
precision; USERDATA emits nothing. -/
def ucl_elt_write_yaml (o : UclObj) (tabs : Nat) (start_tabs is_top : Bool) : List Char :=
  match o with
  | .INT i => (if start_tabs then ucl_add_tabs tabs false else []) ++ intChars i
  | .FLOAT d => (if start_tabs then ucl_add_tabs tabs false else []) ++ lf4Chars d
  | .TIME d => (if start_tabs then ucl_add_tabs tabs false else []) ++ lf4Chars d
  | .BOOLEAN b =>
      (if start_tabs then ucl_add_tabs tabs false else []) ++
      (if b then "true".data else "false".data)
  | .STRING s =>
      (if start_tabs then ucl_add_tabs tabs false else []) ++
      ucl_elt_string_write_json s
  | .OBJECT ms => ucl_elt_obj_write_yaml ms tabs start_tabs is_top
  | .ARRAY es => ucl_elt_array_write_yaml es tabs start_tabs is_top
  | .USERDATA => []
termination_by 3 * sizeOf o
end

/-- ucl_object_emit_yaml: the root is written with is_top = true. -/
def ucl_object_emit_yaml (o : UclObj) : List Char :=
  ucl_elt_write_yaml o 0 false true

/-- Modelled from the spec: enum ucl_emitter of ucl.h is not under src/;
spec sections 4.6 and 6 give the selectors JSON, JSON_COMPACT, YAML and the
default configuration (RCL) value. -/
inductive ucl_emitter : Type where
  | UCL_EMIT_JSON
  | UCL_EMIT_JSON_COMPACT
  | UCL_EMIT_CONFIG
  | UCL_EMIT_YAML
deriving DecidableEq

/-- ucl_object_emit: the if / else if / else dispatch.  Every branch of the
chain returns some buffer; the C function's trailing return NULL would be
the value of the chain only if no branch returned, which the final else
makes impossible. -/
def ucl_object_emit (o : UclObj) (emit_type : ucl_emitter) : Option (List Char) :=
  if emit_type = .UCL_EMIT_JSON then some (ucl_object_emit_json o false)
  else if emit_type = .UCL_EMIT_JSON_COMPACT then some (ucl_object_emit_json o true)
  else if emit_type = .UCL_EMIT_YAML then some (ucl_object_emit_yaml o)
  else some (ucl_object_emit_rcl o)

/-- Reference function for the round-trip claim, following the claim's
words: standard JSON unescaping of one escaped character. -/
def json_unescape_char (c : Char) : Char :=
  if c = 'n' then '\n'
  else if c = 'r' then '\r'
  else if c = 'b' then '\x08'
  else if c = 't' then '\t'
  else if c = 'f' then '\x0c'
  else c

/-- Reference function for the round-trip claim, following the claim's
words: standard JSON unescaping of a quoted string's interior. -/
def json_unescape : List Char → List Char
  | [] => []
  | c :: rest =>
      if c = '\\' then
        match rest with
        | [] => ['\\']
        | e :: rest2 => json_unescape_char e :: json_unescape rest2
      else c :: json_unescape rest

/-! Helper lemmas about the escaper and the numeral renderings. -/

theorem ucl_string_body_eq_flatMap (s : List Char) :
    ucl_string_body s = s.flatMap ucl_escape_char := by
  induction s with
  | nil => rfl
  | cons c rest ih => simp [ucl_string_body, ih]

theorem ucl_escape_char_of_not_special (c : Char) (h : c ∉ uclSpecialChars) :
    ucl_escape_char c = [c] := by
  simp only [uclSpecialChars, List.mem_cons, List.mem_singleton, not_or] at h
  obtain ⟨h1, h2, h3, h4, h5, h6, h7, -⟩ := h
  simp [ucl_escape_char, h1, h2, h3, h4, h5, h6, h7]

theorem json_unescape_ucl_string_body (s : List Char) :
    json_unescape (ucl_string_body s) = s := by
  induction s with
  | nil => rfl
  | cons c rest ih =>
    show json_unescape (ucl_escape_char c ++ ucl_string_body rest) = c :: rest
    unfold ucl_escape_char
    split_ifs with h1 h2 h3 h4 h5 h6 h7
    · subst h1; simp [json_unescape, json_unescape_char, ih]
    · subst h2; simp [json_unescape, json_unescape_char, ih]
    · subst h3; simp [json_unescape, json_unescape_char, ih]
    · subst h4; simp [json_unescape, json_unescape_char, ih]
    · subst h5; simp [json_unescape, json_unescape_char, ih]
    · subst h6; simp [json_unescape, json_unescape_char, ih]
    · subst h7; simp [json_unescape, json_unescape_char, ih]
    · unfold json_unescape
      simp [h6, ih]

theorem ucl_string_body_of_no_special (s : List Char)
    (h : ∀ c ∈ s, c ∉ uclSpecialChars) : ucl_string_body s = s := by
  induction s with
  | nil => rfl
  | cons c rest ih =>
    show ucl_escape_char c ++ ucl_string_body rest = c :: rest
    rw [ucl_escape_char_of_not_special c (h c (by simp)),
      ih fun x hx => h x (by simp [hx])]
    rfl

/-- C2: the escaper is a total function of the input string, wraps its
output in a leading and a trailing double quote, maps each of the seven
special characters (newline, carriage return, backspace, tab, form feed,
backslash, double quote) to its two-character backslash escape, and copies
every other character through unchanged; the empty string yields the two
quote characters. -/
theorem C2_escaper_shape (s : List Char) (c : Char) (h : c ∉ uclSpecialChars) :
    ucl_elt_string_write_json s = '"' :: s.flatMap ucl_escape_char ++ ['"']
    ∧ ucl_escape_char c = [c]
    ∧ ucl_escape_char '\n' = ['\\', 'n']
    ∧ ucl_escape_char '\r' = ['\\', 'r']
    ∧ ucl_escape_char '\x08' = ['\\', 'b']
    ∧ ucl_escape_char '\t' = ['\\', 't']
    ∧ ucl_escape_char '\x0c' = ['\\', 'f']
    ∧ ucl_escape_char '\\' = ['\\', '\\']
    ∧ ucl_escape_char '"' = ['\\', '"']
    ∧ ucl_elt_string_write_json [] = ['"', '"'] := by
  refine ⟨?_, ucl_escape_char_of_not_special c h, by decide, by decide, by decide,
    by decide, by decide, by decide, by decide, by decide⟩
  simp [ucl_elt_string_write_json, ucl_string_body_eq_flatMap]

theorem C2_escaper_shape_witness :
    ucl_elt_string_write_json "a\n".data
        = '"' :: "a\n".data.flatMap ucl_escape_char ++ ['"']
    ∧ ucl_escape_char 'z' = ['z'] := by
  have h := C2_escaper_shape "a\n".data 'z' (by decide)
  exact ⟨h.1, h.2.1⟩

/-- C3: unescaping the escaper's output with the surrounding quotes removed
reproduces the original string exactly, for every string; and a string with
none of the seven special characters is emitted byte-identical except for
the surrounding quotes. -/
theorem C3_escape_roundtrip (s t : List Char) (h : ∀ c ∈ t, c ∉ uclSpecialChars) :
    json_unescape (((ucl_elt_string_write_json s).drop 1).dropLast) = s
    ∧ ucl_elt_string_write_json t = '"' :: t ++ ['"'] := by
  constructor
  · show json_unescape ((('"' :: ucl_string_body s ++ ['"']).drop 1).dropLast) = s
    simp [json_unescape_ucl_string_body]
  · show '"' :: ucl_string_body t ++ ['"'] = '"' :: t ++ ['"']
    rw [ucl_string_body_of_no_special t h]

theorem C3_escape_roundtrip_witness :
    json_unescape (((ucl_elt_string_write_json "a\"b\\".data).drop 1).dropLast)
        = "a\"b\\".data
    ∧ ucl_elt_string_write_json "ab".data = '"' :: "ab".data ++ ['"'] := by
  have h := C3_escape_roundtrip "a\"b\\".data "ab".data (by decide)
  exact ⟨h.1, h.2⟩

/-! Concrete trees used by individual claims. -/

/-- Object with members a = Integer 0 and, under the one key k, an implicit
chain of the two values Integer 1 and Integer 2 (the chained member is not
the head of the member collection). -/
def exC1 : UclObj :=
  .OBJECT (.cons "a".data (.INT 0) .nil
    (.cons "k".data (.INT 1) (.cons (.INT 2) .nil) .nil))

/-- Root object of the concrete scenario of C5. -/
def exC5 : UclObj :=
  .OBJECT (.cons "a".data (.INT 1) .nil
    (.cons "b".data
      (.ARRAY (.cons (.STRING "x".data) (.cons (.BOOLEAN true) .nil))) .nil .nil))

/-- Explicit array Integer 1, UserData, Integer 2. -/
def exC7 : UclObj :=
  .ARRAY (.cons (.INT 1) (.cons .USERDATA (.cons (.INT 2) .nil)))

/-- C1 counterexample: for an object whose second member holds an implicit
two-value chain under one key, the RCL renderer emits no array-shaped
region and drops the second chained value (and YAML behaves the same), so
not every renderer emits an array region with both values. -/
theorem C1_counterexample_rcl_drops_chained_value :
    ucl_object_emit_rcl exC1 = "a = 0;\nk = 1;\n".data
    ∧ '2' ∉ ucl_object_emit_rcl exC1
    ∧ '[' ∉ ucl_object_emit_rcl exC1
    ∧ ucl_object_emit_yaml exC1 = "a : 0,\nk : 1,\n".data
    ∧ '2' ∉ ucl_object_emit_yaml exC1 := by
  have hr : ucl_object_emit_rcl exC1 = "a = 0;\nk = 1;\n".data := by
    simp [exC1, ucl_object_emit_rcl, ucl_elt_write_rcl, ucl_elt_obj_write_rcl,
      ucl_rcl_members, ucl_rcl_chain, ucl_elt_array_write_rcl, ucl_rcl_array_elts,
      ucl_is_container, ucl_add_tabs, tabsChars, intChars, natChars, natCharsGo,
      digitChar, ucl_elt_string_write_json, ucl_string_body, ucl_escape_char]
  have hy : ucl_object_emit_yaml exC1 = "a : 0,\nk : 1,\n".data := by
    simp [exC1, ucl_object_emit_yaml, ucl_elt_write_yaml, ucl_elt_obj_write_yaml,
      ucl_yaml_members, ucl_yaml_chain, ucl_elt_array_write_yaml, ucl_yaml_array_elts,
      ucl_is_container, ucl_add_tabs, tabsChars, intChars, natChars, natCharsGo,
      digitChar, ucl_elt_string_write_json, ucl_string_body, ucl_escape_char]
  refine ⟨hr, ?_, ?_, hy, ?_⟩ <;> simp [hr, hy]

/-- C1 amended: the JSON renderer emits exactly one array-shaped region for
a two-value implicit chain, containing both chained values in insertion
order, and never emits the key twice; the RCL and YAML renderers emit no
array region for a chained member that is not the head of the member
collection: they emit the key once with only the first chained value and
drop the rest. -/
theorem C1_amended_implicit_chain (k ka : List Char) (i j a : Int) :
    ucl_object_emit_json (UclObj.OBJECT (.cons k (.INT i) (.cons (.INT j) .nil) .nil)) true
      = "\x7b".data ++ ucl_elt_string_write_json k ++ ":[".data ++ intChars i
          ++ ",".data ++ intChars j ++ "]\x7d".data
    ∧ ucl_object_emit_rcl
        (UclObj.OBJECT (.cons ka (.INT a) .nil (.cons k (.INT i) (.cons (.INT j) .nil) .nil)))
      = ka ++ " = ".data ++ intChars a ++ ";\n".data
          ++ k ++ " = ".data ++ intChars i ++ ";\n".data
    ∧ ucl_object_emit_yaml
        (UclObj.OBJECT (.cons ka (.INT a) .nil (.cons k (.INT i) (.cons (.INT j) .nil) .nil)))
      = ka ++ " : ".data ++ intChars a ++ ",\n".data
          ++ k ++ " : ".data ++ intChars i ++ ",\n".data := by
  refine ⟨?_, ?_, ?_⟩
  · simp [ucl_object_emit_json, ucl_obj_write_json, ucl_json_value_chain,
      ucl_elt_write_json, ucl_elt_obj_write_json, ucl_json_members,
      ucl_elt_array_write_json, ucl_json_array_elts, ucl_add_tabs, tabsChars,
      ucl_elt_string_write_json]
  · simp [ucl_object_emit_rcl, ucl_elt_write_rcl, ucl_elt_obj_write_rcl,
      ucl_rcl_members, ucl_rcl_chain, ucl_is_container, ucl_add_tabs, tabsChars]
  · simp [ucl_object_emit_yaml, ucl_elt_write_yaml, ucl_elt_obj_write_yaml,
      ucl_yaml_members, ucl_yaml_chain, ucl_is_container, ucl_add_tabs, tabsChars]

/-! Character-level facts feeding the compact-whitespace claim. -/

theorem tabsChars_eq_replicate (n : Nat) : tabsChars n = List.replicate (4 * n) ' ' := by
  induction n with
  | zero => rfl
  | succ m ih =>
    show ' ' :: ' ' :: ' ' :: ' ' :: tabsChars m = _
    rw [ih, show 4 * (m + 1) = 4 + 4 * m by ring, List.replicate_add]
    rfl

theorem digitChar_clean (m : Nat) (h : m < 10) :
    digitChar m ≠ '\n' ∧ digitChar m ≠ ' ' := by
  interval_cases m <;> decide

theorem natCharsGo_mem (fuel : Nat) : ∀ (n : Nat) (acc : List Char),
    ∀ c ∈ natCharsGo fuel n acc, c ∈ acc ∨ ∃ m, m < 10 ∧ c = digitChar m := by
  induction fuel with
  | zero => intro n acc c hc; exact Or.inl hc
  | succ f ih =>
    intro n acc c hc
    by_cases h : n < 10
    · rw [natCharsGo, if_pos h] at hc
      rcases List.mem_cons.mp hc with rfl | hacc
      · exact Or.inr ⟨n, h, rfl⟩
      · exact Or.inl hacc
    · rw [natCharsGo, if_neg h] at hc
      rcases ih (n / 10) (digitChar (n % 10) :: acc) c hc with hacc | hd
      · rcases List.mem_cons.mp hacc with rfl | hacc
        · exact Or.inr ⟨n % 10, Nat.mod_lt _ (by omega), rfl⟩
        · exact Or.inl hacc
      · exact Or.inr hd

theorem natChars_clean (n : Nat) : ∀ c ∈ natChars n, c ≠ '\n' ∧ c ≠ ' ' := by
  intro c hc
  rcases natCharsGo_mem (n + 1) n [] c hc with h | ⟨m, hm, rfl⟩
  · simp at h
  · exact digitChar_clean m hm

theorem intChars_clean (i : Int) : ∀ c ∈ intChars i, c ≠ '\n' ∧ c ≠ ' ' := by
  intro c hc
  unfold intChars at hc
  split_ifs at hc with h
  · rcases List.mem_cons.mp hc with rfl | hc
    · decide
    · exact natChars_clean _ c hc
  · exact natChars_clean _ c hc

theorem lfChars_clean (d : Int) : ∀ c ∈ lfChars d, c ≠ '\n' ∧ c ≠ ' ' := by
  intro c hc
  rcases List.mem_append.mp hc with hc | hc
  · exact intChars_clean d c hc
  · have h6 : ∀ x ∈ ".000000".data, x ≠ '\n' ∧ x ≠ ' ' := by decide
    exact h6 c hc

theorem ucl_escape_char_clean (c : Char) (hc : c ≠ ' ') :
    ∀ x ∈ ucl_escape_char c, x ≠ '\n' ∧ x ≠ ' ' := by
  unfold ucl_escape_char
  split_ifs with h1 h2 h3 h4 h5 h6 h7 <;> intro x hx <;>
    simp only [List.mem_cons, List.mem_singleton, List.not_mem_nil, or_false] at hx
  · rcases hx with rfl | rfl <;> decide
  · rcases hx with rfl | rfl <;> decide
  · rcases hx with rfl | rfl <;> decide
  · rcases hx with rfl | rfl <;> decide
  · rcases hx with rfl | rfl <;> decide
  · rcases hx with rfl | rfl <;> decide
  · rcases hx with rfl | rfl <;> decide
  · subst hx; exact ⟨h1, hc⟩

theorem ucl_string_body_clean (s : List Char) (hs : ∀ c ∈ s, c ≠ ' ') :
    ∀ x ∈ ucl_string_body s, x ≠ '\n' ∧ x ≠ ' ' := by
  induction s with
  | nil => intro x hx; simp [ucl_string_body] at hx
  | cons c rest ih =>
    intro x hx
    rcases List.mem_append.mp hx with hx | hx
    · exact ucl_escape_char_clean c (hs c (by simp)) x hx
    · exact ih (fun y hy => hs y (by simp [hy])) x hx

theorem ucl_string_write_clean (s : List Char) (hs : ∀ c ∈ s, c ≠ ' ') :
    ∀ x ∈ ucl_elt_string_write_json s, x ≠ '\n' ∧ x ≠ ' ' := by
  intro x hx
  rcases List.mem_cons.mp hx with rfl | hx
  · decide
  · rcases List.mem_append.mp hx with hx | hx
    · exact ucl_string_body_clean s hs x hx
    · simp only [List.mem_singleton] at hx; subst hx; decide

mutual
/-- Keys and string payloads contain no space character. -/
def spaceFreeObj (o : UclObj) : Bool :=
  match o with
  | .STRING s => s.all (fun c => c != ' ')
  | .OBJECT ms => spaceFreeMembers ms
  | .ARRAY es => spaceFreeList es
  | _ => true
termination_by 3 * sizeOf o

/-- spaceFreeObj over a next-chain. -/
def spaceFreeList (es : UclList) : Bool :=
  match es with
  | .nil => true
  | .cons hd tl => spaceFreeObj hd && spaceFreeList tl
termination_by 3 * sizeOf es + 1

/-- spaceFreeObj over a member collection, keys included. -/
def spaceFreeMembers (ms : UclMembers) : Bool :=
  match ms with
  | .nil => true
  | .cons k v chain tl =>
      k.all (fun c => c != ' ') && spaceFreeObj v && spaceFreeList chain
        && spaceFreeMembers tl
termination_by 3 * sizeOf ms + 1
end

mutual
/-- Compact JSON emission of a node contains no newline, and no space when
the tree's keys and strings are space-free. -/
theorem clean_elt_json (o : UclObj) (t : Nat) (st : Bool)
    (h : spaceFreeObj o = true) :
    ∀ c ∈ ucl_elt_write_json o t st true, c ≠ '\n' ∧ c ≠ ' ' := by
  cases o with
  | INT i =>
    intro c hc
    simp [ucl_elt_write_json, ucl_add_tabs] at hc
    exact intChars_clean i c hc
  | FLOAT d =>
    intro c hc
    simp [ucl_elt_write_json, ucl_add_tabs] at hc
    exact lfChars_clean d c hc
  | TIME d =>
    intro c hc
    simp [ucl_elt_write_json, ucl_add_tabs] at hc
    exact lfChars_clean d c hc
  | BOOLEAN b =>
    cases b
    · intro c hc
      simp [ucl_elt_write_json, ucl_add_tabs] at hc
      rcases hc with rfl | rfl | rfl | rfl | rfl <;> decide
    · intro c hc
      simp [ucl_elt_write_json, ucl_add_tabs] at hc
      rcases hc with rfl | rfl | rfl | rfl <;> decide
  | STRING s =>
    intro c hc
    simp [ucl_elt_write_json, ucl_add_tabs] at hc
    refine ucl_string_write_clean s ?_ c hc
    intro x hx
    simp only [spaceFreeObj, List.all_eq_true, bne_iff_ne, ne_eq] at h
    exact h x hx
  | OBJECT ms =>
    intro c hc
    simp only [ucl_elt_write_json] at hc
    simp only [spaceFreeObj] at h
    exact clean_obj_json ms t st h c hc
  | ARRAY es =>
    intro c hc
    simp only [ucl_elt_write_json] at hc
    simp only [spaceFreeObj] at h
    exact clean_array_json es t st h c hc
  | USERDATA =>
    intro c hc
    simp [ucl_elt_write_json] at hc
termination_by 3 * sizeOf o

/-- Compact JSON object writer cleanliness. -/
theorem clean_obj_json (ms : UclMembers) (t : Nat) (st : Bool)
    (h : spaceFreeMembers ms = true) :
    ∀ c ∈ ucl_elt_obj_write_json ms t st true, c ≠ '\n' ∧ c ≠ ' ' := by
  intro c hc
  have he : ucl_elt_obj_write_json ms t st true
      = '{' :: (ucl_json_members ms t true ++ ['}']) := by
    simp [ucl_elt_obj_write_json, ucl_add_tabs]
  rw [he] at hc
  rcases List.mem_cons.mp hc with rfl | hc
  · decide
  · rcases List.mem_append.mp hc with hc | hc
    · exact clean_members_json ms t h c hc
    · simp only [List.mem_singleton] at hc; subst hc; decide
termination_by 3 * sizeOf ms + 2

/-- Compact JSON member-loop cleanliness. -/
theorem clean_members_json (ms : UclMembers) (t : Nat)
    (h : spaceFreeMembers ms = true) :
    ∀ c ∈ ucl_json_members ms t true, c ≠ '\n' ∧ c ≠ ' ' := by
  cases ms with
  | nil => intro c hc; simp [ucl_json_members] at hc
  | cons k v chain tl =>
    simp only [spaceFreeMembers, Bool.and_eq_true, List.all_eq_true,
      bne_iff_ne, ne_eq] at h
    obtain ⟨⟨⟨hk, hv⟩, hchain⟩, htl⟩ := h
    intro c hc
    have he : ucl_json_members (UclMembers.cons k v chain tl) t true
        = ucl_elt_string_write_json k
          ++ (':' :: (ucl_obj_write_json v chain (t + 1) false true
              ++ ((match tl with
                   | UclMembers.nil => ([] : List Char)
                   | UclMembers.cons _ _ _ _ => [','])
                  ++ ucl_json_members tl t true))) := by
      cases tl <;> simp [ucl_json_members, ucl_add_tabs]
    rw [he] at hc
    rcases List.mem_append.mp hc with hc | hc
    · exact ucl_string_write_clean k hk c hc
    · rcases List.mem_cons.mp hc with rfl | hc
      · decide
      · rcases List.mem_append.mp hc with hc | hc
        · exact clean_objvalue_json v chain (t + 1) false hv hchain c hc
        · rcases List.mem_append.mp hc with hc | hc
          · cases tl <;> simp only [List.mem_singleton, List.not_mem_nil] at hc
            subst hc; decide
          · exact clean_members_json tl t htl c hc
termination_by 3 * sizeOf ms + 1

/-- Compact JSON value-position cleanliness (implicit-array branch
included). -/
theorem clean_objvalue_json (v : UclObj) (chain : UclList) (t : Nat) (st : Bool)
    (hv : spaceFreeObj v = true) (hchain : spaceFreeList chain = true) :
    ∀ c ∈ ucl_obj_write_json v chain t st true, c ≠ '\n' ∧ c ≠ ' ' := by
  cases chain with
  | nil =>
    intro c hc
    simp only [ucl_obj_write_json] at hc
    exact clean_elt_json v t st hv c hc
  | cons e es =>
    simp only [spaceFreeList, Bool.and_eq_true] at hchain
    intro c hc
    have he : ucl_obj_write_json v (UclList.cons e es) t st true
        = '[' :: (ucl_json_value_chain v (UclList.cons e es) t true ++ [']']) := by
      simp [ucl_obj_write_json, ucl_add_tabs]
    rw [he] at hc
    rcases List.mem_cons.mp hc with rfl | hc
    · decide
    · rcases List.mem_append.mp hc with hc | hc
      · exact clean_valuechain_json v (UclList.cons e es) t hv
          (by simp [spaceFreeList, hchain.1, hchain.2]) c hc
      · simp only [List.mem_singleton] at hc; subst hc; decide
termination_by 3 * sizeOf v + 3 * sizeOf chain + 2

/-- Compact JSON implicit-array loop cleanliness. -/
theorem clean_valuechain_json (cur : UclObj) (rest : UclList) (t : Nat)
    (hcur : spaceFreeObj cur = true) (hrest : spaceFreeList rest = true) :
    ∀ c ∈ ucl_json_value_chain cur rest t true, c ≠ '\n' ∧ c ≠ ' ' := by
  intro c hc
  have he : ucl_json_value_chain cur rest t true
      = ucl_elt_write_json cur (t + 1) true true
        ++ ((match rest with
             | UclList.nil => ([] : List Char)
             | UclList.cons _ _ => [','])
            ++ (match rest with
                | UclList.nil => ([] : List Char)
                | UclList.cons c cs => ucl_json_value_chain c cs t true)) := by
    cases rest <;> simp [ucl_json_value_chain]
  rw [he] at hc
  rcases List.mem_append.mp hc with hc | hc
  · exact clean_elt_json cur (t + 1) true hcur c hc
  · rcases List.mem_append.mp hc with hc | hc
    · cases rest <;> simp only [List.mem_singleton, List.not_mem_nil] at hc
      subst hc; decide
    · cases rest with
      | nil => simp at hc
      | cons e es =>
        simp only [spaceFreeList, Bool.and_eq_true] at hrest
        exact clean_valuechain_json e es t hrest.1 hrest.2 c hc
termination_by 3 * sizeOf cur + 3 * sizeOf rest + 1

/-- Compact JSON array writer cleanliness. -/
theorem clean_array_json (es : UclList) (t : Nat) (st : Bool)
    (h : spaceFreeList es = true) :
    ∀ c ∈ ucl_elt_array_write_json es t st true, c ≠ '\n' ∧ c ≠ ' ' := by
  intro c hc
  have he : ucl_elt_array_write_json es t st true
      = '[' :: (ucl_json_array_elts es t true ++ [']']) := by
    simp [ucl_elt_array_write_json, ucl_add_tabs]
  rw [he] at hc
  rcases List.mem_cons.mp hc with rfl | hc
  · decide
  · rcases List.mem_append.mp hc with hc | hc
    · exact clean_array_elts_json es t h c hc
    · simp only [List.mem_singleton] at hc; subst hc; decide
termination_by 3 * sizeOf es + 2

/-- Compact JSON array-element loop cleanliness. -/
theorem clean_array_elts_json (es : UclList) (t : Nat)
    (h : spaceFreeList es = true) :
    ∀ c ∈ ucl_json_array_elts es t true, c ≠ '\n' ∧ c ≠ ' ' := by
  cases es with
  | nil => intro c hc; simp [ucl_json_array_elts] at hc
  | cons hd tl =>
    simp only [spaceFreeList, Bool.and_eq_true] at h
    intro c hc
    have he : ucl_json_array_elts (UclList.cons hd tl) t true
        = ucl_elt_write_json hd (t + 1) true true
          ++ ((match tl with
               | UclList.nil => ([] : List Char)
               | UclList.cons _ _ => [','])
              ++ ucl_json_array_elts tl t true) := by
      cases tl <;> simp [ucl_json_array_elts]
    rw [he] at hc
    rcases List.mem_append.mp hc with hc | hc
    · exact clean_elt_json hd (t + 1) true h.1 c hc
    · rcases List.mem_append.mp hc with hc | hc
      · cases tl <;> simp only [List.mem_singleton, List.not_mem_nil] at hc
        subst hc; decide
      · exact clean_array_elts_json tl t h.2 c hc
termination_by 3 * sizeOf es + 1
end

/-- Single-member object used to instantiate the whitespace claim. -/
def exC4 : UclObj := .OBJECT (.cons "a".data (.INT 1) .nil .nil)

/-- C4: compact-mode JSON output contains no newline and (for trees whose
keys and string payloads are space-free, the only source of spaces inside
string-literal payloads) no space; in pretty mode the indentation
primitive emits exactly four spaces per level, and an object at depth t
indents its member lines at depth t + 1 and its closing brace at depth t,
one level (four spaces) apart. -/
theorem C4_compact_whitespace_pretty_indent (o : UclObj)
    (h : spaceFreeObj o = true) :
    (∀ c ∈ ucl_object_emit_json o true, c ≠ '\n' ∧ c ≠ ' ')
    ∧ (∀ n, ucl_add_tabs n false = List.replicate (4 * n) ' ')
    ∧ (∀ (t : Nat) (k : List Char) (i : Int),
        ucl_elt_obj_write_json (.cons k (.INT i) .nil .nil) t false false
          = "\x7b\n".data ++ List.replicate (4 * (t + 1)) ' '
            ++ ucl_elt_string_write_json k ++ ": ".data ++ intChars i
            ++ "\n".data ++ List.replicate (4 * t) ' ' ++ "\x7d".data) := by
  refine ⟨?_, ?_, ?_⟩
  · intro c hc
    exact clean_objvalue_json o .nil 0 false h (by simp [spaceFreeList]) c hc
  · intro n
    simp [ucl_add_tabs, tabsChars_eq_replicate]
  · intro t k i
    simp [ucl_elt_obj_write_json, ucl_json_members, ucl_obj_write_json,
      ucl_elt_write_json, ucl_add_tabs, tabsChars_eq_replicate,
      ucl_elt_string_write_json]

theorem C4_compact_whitespace_pretty_indent_witness :
    '\n' ∉ ucl_object_emit_json exC4 true
    ∧ ' ' ∉ ucl_object_emit_json exC4 true
    ∧ ucl_add_tabs 2 false = List.replicate (4 * 2) ' '
    ∧ ucl_elt_obj_write_json (.cons "a".data (.INT 1) .nil .nil) 1 false false
        = "\x7b\n".data ++ List.replicate (4 * (1 + 1)) ' '
          ++ ucl_elt_string_write_json "a".data ++ ": ".data ++ intChars 1
          ++ "\n".data ++ List.replicate (4 * 1) ' ' ++ "\x7d".data := by
  have H := C4_compact_whitespace_pretty_indent exC4
    (by simp [exC4, spaceFreeObj, spaceFreeMembers, spaceFreeList])
  exact ⟨fun hm => (H.1 '\n' hm).1 rfl, fun hm => (H.1 ' ' hm).2 rfl,
    H.2.1 2, H.2.2 1 "a".data 1⟩

/-- C5: the concrete tree Object(a = Integer 1, b = Array(String "x",
Boolean true)) renders to exactly the claimed compact-JSON and RCL byte
sequences. -/
theorem C5_concrete_tree_outputs :
    ucl_object_emit_json exC5 true = "\x7b\"a\":1,\"b\":[\"x\",true]\x7d".data
    ∧ ucl_object_emit_rcl exC5 = "a = 1;\nb [\n    \"x\",\n    true,\n]\n".data := by
  constructor
  · simp [exC5, ucl_object_emit_json, ucl_obj_write_json, ucl_json_value_chain,
      ucl_elt_write_json, ucl_elt_obj_write_json, ucl_json_members,
      ucl_elt_array_write_json, ucl_json_array_elts, ucl_add_tabs, tabsChars,
      intChars, natChars, natCharsGo, digitChar,
      ucl_elt_string_write_json, ucl_string_body, ucl_escape_char]
  · simp [exC5, ucl_object_emit_rcl, ucl_elt_write_rcl, ucl_elt_obj_write_rcl,
      ucl_rcl_members, ucl_rcl_chain, ucl_elt_array_write_rcl, ucl_rcl_array_elts,
      ucl_is_container, ucl_add_tabs, tabsChars, intChars, natChars, natCharsGo,
      digitChar, ucl_elt_string_write_json, ucl_string_body, ucl_escape_char]

/-- C6: the dispatcher invokes exactly one renderer per selector: the two
JSON selectors select the JSON renderer with the matching compact flag, the
YAML selector selects the YAML renderer, and every other selector value
yields the RCL renderer's output rather than an error. -/
theorem C6_dispatcher_selects_renderer (o : UclObj) (e : ucl_emitter)
    (h1 : e ≠ .UCL_EMIT_JSON) (h2 : e ≠ .UCL_EMIT_JSON_COMPACT)
    (h3 : e ≠ .UCL_EMIT_YAML) :
    ucl_object_emit o .UCL_EMIT_JSON = some (ucl_object_emit_json o false)
    ∧ ucl_object_emit o .UCL_EMIT_JSON_COMPACT = some (ucl_object_emit_json o true)
    ∧ ucl_object_emit o .UCL_EMIT_YAML = some (ucl_object_emit_yaml o)
    ∧ ucl_object_emit o e = some (ucl_object_emit_rcl o) := by
  refine ⟨by simp [ucl_object_emit], by simp [ucl_object_emit],
    by simp [ucl_object_emit], ?_⟩
  simp [ucl_object_emit, h1, h2, h3]

theorem C6_dispatcher_selects_renderer_witness :
    ucl_object_emit (UclObj.OBJECT UclMembers.nil) .UCL_EMIT_JSON
        = some (ucl_object_emit_json (UclObj.OBJECT UclMembers.nil) false)
    ∧ ucl_object_emit (UclObj.OBJECT UclMembers.nil) .UCL_EMIT_JSON_COMPACT
        = some (ucl_object_emit_json (UclObj.OBJECT UclMembers.nil) true)
    ∧ ucl_object_emit (UclObj.OBJECT UclMembers.nil) .UCL_EMIT_YAML
        = some (ucl_object_emit_yaml (UclObj.OBJECT UclMembers.nil))
    ∧ ucl_object_emit (UclObj.OBJECT UclMembers.nil) .UCL_EMIT_CONFIG
        = some (ucl_object_emit_rcl (UclObj.OBJECT UclMembers.nil)) :=
  C6_dispatcher_selects_renderer (UclObj.OBJECT UclMembers.nil) .UCL_EMIT_CONFIG
    (by decide) (by decide) (by decide)

/-- C7 counterexample: a UserData element between two array siblings still
gets its positional comma, so the compact-JSON output is [1,,2], not the
well-separated [1,2] the claim demands. -/
theorem C7_counterexample_extra_separator :
    ucl_object_emit_json exC7 true = "[1,,2]".data
    ∧ ucl_object_emit_json exC7 true ≠ "[1,2]".data := by
  have h : ucl_object_emit_json exC7 true = "[1,,2]".data := by
    simp [exC7, ucl_object_emit_json, ucl_obj_write_json, ucl_json_value_chain,
      ucl_elt_write_json, ucl_elt_obj_write_json, ucl_json_members,
      ucl_elt_array_write_json, ucl_json_array_elts, ucl_add_tabs, tabsChars,
      intChars, natChars, natCharsGo, digitChar]
  exact ⟨h, by rw [h]; decide⟩

/-- C7 amended: a UserData node itself contributes zero bytes in all three
formats and iteration continues over the remaining siblings, but each
renderer emits the separator for every chain position including the
UserData's, so a UserData between two siblings produces consecutive
separators (an empty slot) instead of the separators-only-between-emitted-
elements rendering. -/
theorem C7_amended_userdata_zero_bytes (i j : Int) (t : Nat) (st c it : Bool) :
    ucl_elt_write_json .USERDATA t st c = []
    ∧ ucl_elt_write_rcl .USERDATA t st it = []
    ∧ ucl_elt_write_yaml .USERDATA t st it = []
    ∧ ucl_object_emit_json
        (.ARRAY (.cons (.INT i) (.cons .USERDATA (.cons (.INT j) .nil)))) true
      = "[".data ++ intChars i ++ ",,".data ++ intChars j ++ "]".data
    ∧ ucl_object_emit_rcl
        (.ARRAY (.cons (.INT i) (.cons .USERDATA (.cons (.INT j) .nil))))
      = "[\n    ".data ++ intChars i ++ ",\n,\n    ".data ++ intChars j
          ++ ",\n]".data := by
  refine ⟨by simp [ucl_elt_write_json], by simp [ucl_elt_write_rcl],
    by simp [ucl_elt_write_yaml], ?_, ?_⟩
  · simp [ucl_object_emit_json, ucl_obj_write_json, ucl_json_value_chain,
      ucl_elt_write_json, ucl_elt_array_write_json, ucl_json_array_elts,
      ucl_add_tabs, tabsChars]
  · simp [ucl_object_emit_rcl, ucl_elt_write_rcl, ucl_elt_array_write_rcl,
      ucl_rcl_array_elts, ucl_add_tabs, tabsChars]

/-- C8: the empty root object renders to exactly the two bytes of an empty
brace pair in compact JSON, and to the empty byte sequence at RCL top level
(no stray closing brace). -/
theorem C8_empty_object_outputs :
    ucl_object_emit_json (UclObj.OBJECT UclMembers.nil) true = "\x7b\x7d".data
    ∧ ucl_object_emit_rcl (UclObj.OBJECT UclMembers.nil) = [] := by
  constructor
  · simp [ucl_object_emit_json, ucl_obj_write_json, ucl_elt_write_json,
      ucl_elt_obj_write_json, ucl_json_members, ucl_add_tabs, tabsChars]
  · simp [ucl_object_emit_rcl, ucl_elt_write_rcl, ucl_elt_obj_write_rcl,
      ucl_add_tabs, tabsChars]

/-- C9: for every tree and selector the emit entry point returns the
selected renderer's buffer, never the null result: the dispatch's trailing
null return is unreachable. -/
theorem C9_emit_never_null (o : UclObj) (e : ucl_emitter) :
    (ucl_object_emit o e).isSome = true := by
  cases e <;> simp [ucl_object_emit]

/-- C10: for an object member, RCL and YAML emit the key verbatim with no
quotes and no escaping, for every key byte sequence, while compact JSON
emits the key as a quoted escaped string literal via the shared escaper. -/
theorem C10_keys_verbatim_vs_escaped (k : List Char) (n : Int) :
    ucl_object_emit_rcl (UclObj.OBJECT (.cons k (.INT n) .nil .nil))
      = k ++ " = ".data ++ intChars n ++ ";\n".data
    ∧ ucl_object_emit_yaml (UclObj.OBJECT (.cons k (.INT n) .nil .nil))
      = k ++ " : ".data ++ intChars n ++ ",\n".data
    ∧ ucl_object_emit_json (UclObj.OBJECT (.cons k (.INT n) .nil .nil)) true
      = "\x7b".data ++ ucl_elt_string_write_json k ++ ":".data ++ intChars n
          ++ "\x7d".data := by
  refine ⟨?_, ?_, ?_⟩
  · simp [ucl_object_emit_rcl, ucl_elt_write_rcl, ucl_elt_obj_write_rcl,
      ucl_rcl_members, ucl_rcl_chain, ucl_is_container, ucl_add_tabs, tabsChars]
  · simp [ucl_object_emit_yaml, ucl_elt_write_yaml, ucl_elt_obj_write_yaml,
      ucl_yaml_members, ucl_yaml_chain, ucl_is_container, ucl_add_tabs, tabsChars]
  · simp [ucl_object_emit_json, ucl_obj_write_json, ucl_elt_write_json,
      ucl_elt_obj_write_json, ucl_json_members, ucl_add_tabs, tabsChars,
      ucl_elt_string_write_json]

end UclEmitter
